import Mathlib

/-!
Verification development for the BIM question-resolution pipeline
(`routes/chat.js`, `services/sqlite.js`, `services/snapshotIngest.js`).

JavaScript semantics are embedded shallowly:
* JS strings are `String`; `null`/`undefined` become `Option`;
* JSON scalar values stored in `props_flat` become `JsVal`
  (`null`, number, string — the only shapes the code distinguishes);
* JS number arithmetic is modelled over `ℚ` (exact) and vector math over `ℝ`;
* truthiness tests (`if (x)`) are spelled out per type (`jsTruthyS`, …).
-/

namespace BimPipeline

/-- JS whitespace test used by `String.prototype.trim` (restricted to the
ASCII whitespace actually occurring in this data). -/
def isWs (c : Char) : Bool := c = ' ' || c = '\t' || c = '\n' || c = '\r'

/-- Character-level trim, so that everything kernel-reduces. -/
def trimChars (l : List Char) : List Char :=
  ((l.dropWhile isWs).reverse.dropWhile isWs).reverse

/-- `norm` from `routes/chat.js`: `String(s || "").trim()` (the argument is
already a string at every call site). -/
def norm (s : String) : String := String.mk (trimChars s.toList)

/-- `stripEmpty` from `routes/chat.js`: `arr.map(norm).filter(Boolean)`. -/
def stripEmpty (arr : List String) : List String :=
  (arr.map norm).filter (fun s => s ≠ "")

/-- Truthiness of a JS string-or-null (`null` and `""` are falsy). -/
def jsTruthyS : Option String → Bool
  | some s => s ≠ ""
  | none => false

/-- JSON scalar value as read back from the `props_flat` column
(`json_extract` yields `null`, a number or a string here). -/
inductive JsVal where
  | vnull : JsVal
  | vnum (q : ℚ) : JsVal
  | vstr (s : String) : JsVal
deriving DecidableEq, Repr

/-- JS falsiness of a `JsVal` (`!row.area_raw`): `null`, `0`, `""`. -/
def jsFalsyVal : JsVal → Bool
  | .vnull => true
  | .vnum q => q = 0
  | .vstr s => s = ""

/-! ### The number-extraction regex of `sum_area`

`routes/chat.js` extracts the first match of `[-+]?\d+(?:[.,]\d+)?` from a
string and applies `parseFloat(match.replace(",", "."))`. -/

/-- Split off the leading run of ASCII digits. -/
def takeDigits : List Char → List Char × List Char
  | [] => ([], [])
  | c :: cs =>
    if c.isDigit then
      let p := takeDigits cs
      (c :: p.1, p.2)
    else ([], c :: cs)

/-- Decimal value of a digit run. -/
def digitsToNat (ds : List Char) : Nat :=
  ds.foldl (fun n c => 10 * n + (c.toNat - '0'.toNat)) 0

/-- Try to match `[-+]?\d+(?:[.,]\d+)?` anchored at the head of `l` and
return the value `parseFloat` produces for the matched token
(`,` is replaced by `.` before parsing, as in the source). -/
def matchNumAt (l : List Char) : Option ℚ :=
  let sr : Bool × List Char :=
    match l with
    | c :: cs => if c = '-' then (true, cs) else if c = '+' then (false, cs) else (false, l)
    | [] => (false, [])
  match takeDigits sr.2 with
  | ([], _) => none
  | (ds, rest) =>
    let frac : List Char :=
      match rest with
      | c :: cs => if c = '.' || c = ',' then (takeDigits cs).1 else []
      | [] => []
    let q : ℚ :=
      (digitsToNat ds : ℚ) +
        (if frac.isEmpty then 0 else (digitsToNat frac : ℚ) / (10 : ℚ) ^ frac.length)
    some (if sr.1 then -q else q)

/-- Leftmost-match scan of the regex over a character list. -/
def firstNumAux : List Char → Option ℚ
  | [] => none
  | c :: cs =>
    match matchNumAt (c :: cs) with
    | some q => some q
    | none => firstNumAux cs

/-- `String(row.area_raw).match(/[-+]?\d+(?:[.,]\d+)?/)` followed by
`parseFloat(match[0].replace(",", "."))`: the first decimal number in the
string, or `none` when there is no match. -/
def firstNumberMatch (s : String) : Option ℚ := firstNumAux s.toList

/-- One iteration of the `sum_area` accumulation loop of `runQuery`:
skip falsy raw values, take numbers directly, extract the first decimal
number from strings, and add only non-zero extracted values
(`if (areaNum && !isNaN(areaNum))`). -/
def sumAreaStep (acc : ℚ × Nat) (v : JsVal) : ℚ × Nat :=
  if jsFalsyVal v then acc
  else
    let areaNum : ℚ :=
      match v with
      | .vnum q => q
      | .vstr s =>
        match firstNumberMatch s with
        | some q => q
        | none => 0
      | .vnull => 0
    if areaNum = 0 then acc else (acc.1 + areaNum, acc.2 + 1)

/-- The whole `sum_area` loop: returns `(total_area, n)`. -/
def sumArea (vals : List JsVal) : ℚ × Nat := vals.foldl sumAreaStep (0, 0)

/-! ### Semantic retrieval (`services/sqlite.js`)

JS floating-point vectors are modelled over `ℝ`; `Math.sqrt` is `Real.sqrt`.
These definitions are consequently noncomputable, and concrete instances in
witnesses are evaluated by `simp`/`norm_num`. -/

/-- Dot product accumulated by the `cosineSimilarity` loop. -/
def dotProduct (a b : List ℝ) : ℝ := (List.zipWith (· * ·) a b).sum

/-- `cosineSimilarity(a, b)` from `services/sqlite.js`: `0` when the lengths
differ; otherwise dot product over the product of the L2 norms, with the
zero-magnitude guard returning `0`. -/
noncomputable def cosineSimilarity (a b : List ℝ) : ℝ :=
  if a.length ≠ b.length then 0
  else
    let dot := dotProduct a b
    let magA := dotProduct a a
    let magB := dotProduct b b
    let magnitude := Real.sqrt magA * Real.sqrt magB
    if magnitude = 0 then 0 else dot / magnitude

/-- The scored candidate list of `semanticSearch`: each row that has a stored
embedding (modelled as an `(id, embedding)` pair) is scored against the query
embedding, then the list is sorted by descending score
(`scores.sort((a, b) => b.score - a.score)`, a stable sort). -/
noncomputable def semanticScores (rows : List (ℤ × List ℝ)) (queryEmbedding : List ℝ) :
    List (ℤ × ℝ) :=
  (rows.map (fun row => (row.1, cosineSimilarity queryEmbedding row.2))).mergeSort
    (fun a b => decide (b.2 ≤ a.2))

/-- `semanticSearch(db, urn, queryEmbedding, k)`: `rows` stands for the result
of `SELECT id, embedding FROM elements WHERE urn = ? AND embedding IS NOT
NULL`; the empty-result early return, the sort and `slice(0, k).map(s => s.id)`
are as in the source. -/
noncomputable def semanticSearch (rows : List (ℤ × List ℝ)) (queryEmbedding : List ℝ)
    (k : Nat) : List ℤ :=
  if rows.isEmpty then []
  else ((semanticScores rows queryEmbedding).take k).map Prod.fst

/-! ### The chat route (`routes/chat.js`)

The Gemini calls are external collaborators: each inference response is an
explicit input of the embedded function (`Except Unit _` — `.error` models a
thrown/failed call). -/

/-- Parsed JSON response of the LLM hint-detection prompt
(`{category, confidence, reason}`; `reason` is only logged). -/
structure HintResp where
  category : Option String
  confidence : String
deriving DecidableEq, Repr

/-- `detectHintCategory(question, availableCategories)`: returns `null` for an
empty question or category list; otherwise asks the inference service and
returns its `category` when it is truthy and `confidence !== "low"`; a thrown
service error is caught and yields `null`. -/
def detectHintCategory (question : String) (availableCategories : List String)
    (llm : Except Unit HintResp) : Option String :=
  if question = "" || availableCategories.isEmpty then none
  else
    match llm with
    | .error _ => none
    | .ok result =>
      match result.category with
      | some c => if c ≠ "" && result.confidence ≠ "low" then some c else none
      | none => none

/-- First-step (intent) inference output (`plan1`). -/
structure Plan1 where
  intent : String
  task : Option String
  category : Option String
  limit : Option ℤ
  notes : Option String
deriving DecidableEq, Repr

/-- Second-step (parameter) inference output (`plan2`). -/
structure Plan2 where
  useSemanticSearch : Bool
  semanticQuery : Option String
  topK : Option ℤ
  filterParam : Option String
  filterValue : Option String
  targetParam : Option String
  propsFlatKey : Option String
  limit : Option ℤ
deriving DecidableEq, Repr

/-- The merged plan threaded into `runQuery`. -/
structure Plan where
  urn : String
  task : String
  category : Option String
  limit : ℤ
  filterParam : Option String
  filterValue : Option String
  targetParam : Option String
  propsFlatKey : Option String
  useSemanticSearch : Bool
  semanticQuery : Option String
  topK : ℤ
deriving DecidableEq, Repr

/-- JS `x || null` on a string-or-null (`""` collapses to `null`). -/
def jsOrNull (o : Option String) : Option String :=
  match o with
  | some s => if s = "" then none else some s
  | none => none

/-- JS `x || y` chain on numbers-or-null (`0` and `null` are falsy). -/
def jsOrInt (o : Option ℤ) (d : ℤ) : ℤ :=
  match o with
  | some n => if n = 0 then d else n
  | none => d

/-- Lines 531–533 of `routes/chat.js`:
`let category = plan1.category ? norm(plan1.category) : null;` followed by the
hint fix-up `if (!category && hintCategory && meta.categories.includes(hintCategory))
category = hintCategory;`. -/
def mergeCategory (plan1Category hintCategory : Option String)
    (categories : List String) : Option String :=
  let category : Option String :=
    match plan1Category with
    | some s => if s = "" then none else some (norm s)
    | none => none
  if !jsTruthyS category && jsTruthyS hintCategory
      && categories.contains (hintCategory.getD "") then
    hintCategory
  else category

/-- The plan-merging object literal (lines 548–562 of `routes/chat.js`).
`category` is the already-merged category of `mergeCategory`. -/
def mergePlan (urn : String) (plan1 : Plan1) (plan2 : Plan2)
    (category : Option String) : Plan :=
  { urn := urn
    task := (jsOrNull plan1.task).getD "count"
    category := category
    limit := jsOrInt plan2.limit (jsOrInt plan1.limit 20)
    filterParam := jsOrNull plan2.filterParam
    filterValue := plan2.filterValue
    targetParam := jsOrNull plan2.targetParam
    propsFlatKey := jsOrNull plan2.propsFlatKey
    useSemanticSearch := plan2.useSemanticSearch
    semanticQuery := jsOrNull plan2.semanticQuery
    topK := jsOrInt plan2.topK 100 }

/-- The fixed attribute allow-list (`allowedParams` in `routes/chat.js`). -/
def allowedParams : List String :=
  ["level_number", "room_name", "room_type", "system_name", "system_type",
   "manufacturer", "model_name", "type_name", "family_name", "omniclass_title"]

/-- `if (plan.xParam && !allowedParams.has(plan.xParam)) plan.xParam = null`,
applied to `filterParam` and `targetParam`. -/
def sanitizeParam (o : Option String) : Option String :=
  match o with
  | some p => if p ≠ "" && !allowedParams.contains p then none else some p
  | none => none

/-- The normalization step after merging: a truthy `filterParam`/`targetParam`
outside the allow-list is reset to `null`. -/
def sanitizePlan (plan : Plan) : Plan :=
  { plan with
    filterParam := sanitizeParam plan.filterParam
    targetParam := sanitizeParam plan.targetParam }

/-- The trimmed proposed filter value of Step 2.5
(`String(plan.filterValue).trim()` when `filterValue` is non-null, else `''`). -/
def vdProposed (plan : Plan) : String :=
  match plan.filterValue with
  | some v => norm v
  | none => ""

/-- Step 2.5 of the route (value prompt): `dbValues` stands for the full
distinct non-empty value list of the filter attribute in the partition, in
the store's enumeration order; the candidate fetch truncates it to 200 rows
(`SELECT DISTINCT <filterParam> … != '' LIMIT 200`). `llm` is the outcome of
the value-prompt call (`.error` = any exception inside the `try`, which is
caught and leaves the plan untouched). The picked value replaces
`filterValue` only when its trim occurs among the trimmed candidates. -/
def valueDisambiguation (plan : Plan) (dbValues : List String)
    (llm : Except Unit (Option String)) : Plan :=
  if jsTruthyS plan.filterParam then
    let candidates := stripEmpty (dbValues.take 200)
    if candidates.isEmpty then plan
    else
      let proposed := vdProposed plan
      let exactHit := proposed ≠ "" && candidates.any (fun v => norm v = proposed)
      if !exactHit && proposed ≠ "" then
        match llm with
        | .error _ => plan
        | .ok none => plan
        | .ok (some value) =>
          let picked := norm value
          if candidates.any (fun v => norm v = picked) then
            { plan with filterValue := some value }
          else plan
      else plan
  else plan

/-! ### The `elements` table and `runQuery` -/

/-- One row of the `elements` table (schema of `services/sqlite.js`).
Text columns are `Option String` (`NULL` = `none`); numeric SQLite values
stored into text columns are abstracted to their text form. `props_flat` is
the parsed JSON object (an association list, later keys overriding earlier
ones at insertion). -/
structure Row where
  id : ℤ
  urn : String
  guid : String
  dbId : ℤ
  name : Option String
  component_id : ℤ
  component_type : Option String
  type_name : Option String
  family_name : Option String
  is_asset : Option String
  level_number : Option String
  room_type : Option String
  room_name : Option String
  system_type : Option String
  system_name : Option String
  manufacturer : Option String
  model_name : Option String
  specification : Option String
  omniclass_title : Option String
  omniclass_number : Option String
  props_flat : List (String × JsVal)
deriving Repr

/-- Column access by (allow-listed) attribute name, as interpolated into the
SQL text of `runQuery`. -/
def getField (r : Row) (k : String) : Option String :=
  if k = "level_number" then r.level_number
  else if k = "room_name" then r.room_name
  else if k = "room_type" then r.room_type
  else if k = "system_name" then r.system_name
  else if k = "system_type" then r.system_type
  else if k = "manufacturer" then r.manufacturer
  else if k = "model_name" then r.model_name
  else if k = "type_name" then r.type_name
  else if k = "family_name" then r.family_name
  else if k = "omniclass_title" then r.omniclass_title
  else if k = "component_type" then r.component_type
  else none

/-- Category value of the WHERE clause in `runQuery`
(`const category = plan.category ? norm(plan.category) : null;` and the
clause is added only `if (category)`). -/
def queryCategory (plan : Plan) : Option String :=
  match plan.category with
  | some s => if s = "" then none else (if norm s = "" then none else some (norm s))
  | none => none

/-- Filter-equality clause of the WHERE clause in `runQuery`: present only
when `filterParam` is truthy and `filterValue` is non-null with a non-empty
trim; the bound value is the untrimmed `filterValue`. -/
def queryFilter (plan : Plan) : Option (String × String) :=
  match plan.filterParam, plan.filterValue with
  | some k, some v => if k ≠ "" && norm v ≠ "" then some (k, v) else none
  | _, _ => none

/-- Evaluation of the conjunctive WHERE clause on one row (SQL `=` on a
`NULL` column is not a match). -/
def matchesWhere (urn : String) (cids : Option (List ℤ)) (category : Option String)
    (filt : Option (String × String)) (r : Row) : Bool :=
  r.urn = urn
    && (match cids with
        | some ids => ids.contains r.id
        | none => true)
    && (match category with
        | some c => r.component_type = some c
        | none => true)
    && (match filt with
        | some kv => getField r kv.1 = some kv.2
        | none => true)

/-- SQLite `LIMIT n` (a negative limit means no limit). -/
def applyLimit {α : Type} (n : ℤ) (l : List α) : List α :=
  if n < 0 then l else l.take n.toNat

/-- `GROUP BY` counting, groups listed in first-occurrence order (SQLite's
pre-`ORDER BY` group order is unspecified; first occurrence is the
deterministic representative). -/
def groupCounts (vals : List String) : List (String × Nat) :=
  vals.foldl
    (fun acc v =>
      if acc.any (fun p => p.1 = v) then
        acc.map (fun p => if p.1 = v then (p.1, p.2 + 1) else p)
      else acc ++ [(v, 1)])
    []

/-- Split a character list at the dots, as SQLite's JSON path parser splits
the member chain of an unquoted `$.a.b.c` path. -/
def splitCharsOnDot : List Char → List (List Char)
  | [] => [[]]
  | c :: cs =>
    let rest := splitCharsOnDot cs
    if c = '.' then [] :: rest
    else
      match rest with
      | r :: rs => (c :: r) :: rs
      | [] => [[c]]

/-- The member chain of the JSON path `'$.' ++ k` (the key is interpolated
unquoted, so every `.` inside it becomes a path separator). -/
def jsonPathParts (k : String) : List String :=
  (splitCharsOnDot k.toList).map String.mk

/-- `json_extract(props_flat, '$.' || key)` with SQLite path semantics: a
single-component path is a member lookup (`NULL` when absent); a
multi-component path — which is what every key of the form `"Group.Name"`
produces, the key being interpolated without quoting — descends through
nested objects, and since every `props_flat` value is a scalar it yields
`NULL`. -/
def jsonExtract (flat : List (String × JsVal)) (k : String) : JsVal :=
  match jsonPathParts k with
  | [single] => (flat.lookup single).getD .vnull
  | _ => .vnull

/-- Result union of `runQuery`. -/
inductive QueryResult where
  | count (n : Nat)
  | distinct (field : String) (values : List String)
  | group (field : String) (rows : List (String × Nat))
  | sum (propsFlatKey : String) (total : ℚ) (n : Nat)
  | docs (rows : List Row)

/-- The symbolic part of `runQuery` (everything after the semantic-search
block), parameterized by the candidate-id outcome: WHERE-clause construction
and the five task branches; the `throw new Error(...)` cases surface as
`.error`. The `list` branch returns the matched rows themselves; the
re-nesting of their columns into presentation groups is omitted as a pure
re-formatting. -/
def execQuery (db : List Row) (plan : Plan) (cids : Option (List ℤ)) :
    Except String QueryResult :=
  let effCids : Option (List ℤ) :=
    match cids with
    | some ids => if ids.isEmpty then none else some ids
    | none => none
  let matched := db.filter
    (matchesWhere plan.urn effCids (queryCategory plan) (queryFilter plan))
  if plan.task = "count" then .ok (.count matched.length)
  else if plan.task = "distinct" then
    match jsOrNull plan.targetParam with
    | none => .error "distinct requires targetParam"
    | some field =>
      let rows := (matched.filter (fun r => (getField r field).isSome)).map
        (fun r => (getField r field).getD "")
      .ok (.distinct field (stripEmpty (applyLimit plan.limit rows.dedup)))
  else if plan.task = "group_count" then
    match jsOrNull plan.targetParam with
    | none => .error "group_count requires targetParam"
    | some field =>
      let rows := (matched.filter (fun r => (getField r field).isSome)).map
        (fun r => (getField r field).getD "")
      let sorted := (groupCounts rows).mergeSort (fun a b => decide (b.2 ≤ a.2))
      .ok (.group field (applyLimit plan.limit sorted))
  else if plan.task = "sum_area" then
    match jsOrNull plan.propsFlatKey with
    | none => .error "sum_area requires propsFlatKey"
    | some key =>
      let vals := matched.map (fun r => jsonExtract r.props_flat key)
      .ok (.sum key (sumArea vals).1 (sumArea vals).2)
  else .ok (.docs (applyLimit plan.limit matched))

/-- The semantic-search preamble of `runQuery`: `candidateIds` stays `null`
unless semantic search is requested, the embedding call succeeds with a
non-null embedding and `semanticSearch` returns; a thrown error is caught
(`// Continue with regular query`). `semanticOutcome` is `.error` for a
throw, `.ok none` for a null query embedding, `.ok (some ids)` for success. -/
def computeCandidateIds (plan : Plan)
    (semanticOutcome : Except Unit (Option (List ℤ))) : Option (List ℤ) :=
  if plan.useSemanticSearch && jsTruthyS plan.semanticQuery then
    match semanticOutcome with
    | .ok (some ids) => some ids
    | .ok none => none
    | .error _ => none
  else none

/-- `runQuery(db, meta, plan)` with the semantic-search outcome as an
explicit input. -/
def runQuery (db : List Row) (plan : Plan)
    (semanticOutcome : Except Unit (Option (List ℤ))) : Except String QueryResult :=
  execQuery db plan (computeCandidateIds plan semanticOutcome)

/-- The dynamic attribute names interpolated into the SQL text for a plan:
the filter-equality column and, for `distinct`/`group_count`, the
target/grouping column. (The remaining columns — `urn`, `id`,
`component_type` — are fixed in the source text.) -/
def queryAttrNames (plan : Plan) : List String :=
  (match queryFilter plan with
   | some kv => [kv.1]
   | none => []) ++
  (if plan.task = "distinct" || plan.task = "group_count" then
    match jsOrNull plan.targetParam with
    | some f => [f]
    | none => []
  else [])

/-! ### Snapshot ingest (`services/snapshotIngest.js`)

The delete-then-insert ingest for one partition (URN). Unicode-aware pieces
of JS (`toLowerCase`, `\p{L}\p{N}`) are modelled with their ASCII
counterparts; JS/SQLite numeric-to-text formatting is abstracted by the
`ℚ` printer. Neither approximation is load-bearing for any claim proved
below. -/

/-- `normalizeKey`: lowercase, turn every non-alphanumeric run into a single
space, trim. -/
def normalizeKey (s : String) : String :=
  let mapped := String.mk (s.toList.map (fun c => if c.isAlphanum then c.toLower else ' '))
  " ".intercalate ((mapped.split (fun c => c = ' ')).filter (fun p => p ≠ ""))

/-- `isEmpty(v)`: `null`/`undefined`, or a string that trims to `""`. -/
def isEmptyVal : JsVal → Bool
  | .vnull => true
  | .vnum _ => false
  | .vstr s => norm s = ""

/-- JS truthiness of a property value. -/
def jsTruthyVal : JsVal → Bool
  | .vnull => false
  | .vnum q => q ≠ 0
  | .vstr s => s ≠ ""

/-- JS string conversion of a property value (numeric formatting
abstracted). -/
def jsValToString : JsVal → String
  | .vnull => "null"
  | .vnum q => toString q
  | .vstr s => s

/-- `` `${x || ""}` `` for a found-or-null property value. -/
def jsValOrEmpty : Option JsVal → String
  | some v => if jsTruthyVal v then jsValToString v else ""
  | none => ""

/-- Does the haystack start with the needle? -/
def listStartsWith : List Char → List Char → Bool
  | _, [] => true
  | [], _ :: _ => false
  | c :: cs, d :: ds => c = d && listStartsWith cs ds

/-- Does the haystack contain the needle as a contiguous run? -/
def listContainsSub : List Char → List Char → Bool
  | [], needle => needle.isEmpty
  | c :: cs, needle => listStartsWith (c :: cs) needle || listContainsSub cs needle

/-- Substring containment (`String.prototype.includes`). -/
def containsSub (s sub : String) : Bool := listContainsSub s.toList sub.toList

/-- Inner keyword scan of `findInFlat`: first flat entry whose normalized key
contains the normalized keyword and whose value is non-empty. -/
def findInFlatGo (flat : List (String × JsVal)) : List String → Option JsVal
  | [] => none
  | kw :: rest =>
    let kwN := normalizeKey kw
    if kwN = "" then findInFlatGo flat rest
    else
      match flat.find? (fun e =>
          !isEmptyVal e.2 && containsSub (normalizeKey e.1) kwN) with
      | some e => some e.2
      | none => findInFlatGo flat rest

/-- `findInFlat(flat, keywords)`. -/
def findInFlat (flat : List (String × JsVal)) (keywords : List String) : Option JsVal :=
  if flat.isEmpty then none else findInFlatGo flat keywords

/-- `inferCategory(typeName, familyName)`: keyword rules over the lowercased
concatenation. (As in the source, the `door` rule fires before the `window`
rule, so a name containing `cửa sổ` already matches `cửa`.) -/
def inferCategory (typeName familyName : Option JsVal) : Option String :=
  let s := (jsValOrEmpty typeName ++ " " ++ jsValOrEmpty familyName).toLower
  if containsSub s "door" || containsSub s "cửa" then some "Doors"
  else if containsSub s "window" || containsSub s "cửa sổ" then some "Windows"
  else if containsSub s "wall" || containsSub s "tường" then some "Walls"
  else if containsSub s "floor" || containsSub s "sàn" then some "Floors"
  else if containsSub s "room" || containsSub s "phòng" then some "Rooms"
  else none

/-- Keyword lists of `services/dmMapping.js` (the fields used by
`extractGroups`). -/
def mappingBasicTypeName : List String :=
  ["type name", "type", "identity data.type name", "typename"]

def mappingBasicFamilyName : List String :=
  ["family name", "family", "identity data.family name", "familyname"]

def mappingBasicComponentType : List String :=
  ["component_type", "category", "revit category", "category name",
   "omniclass title", "identity data.omniclass title"]

def mappingBasicIsAsset : List String :=
  ["is_asset", "asset", "is facility asset", "facility asset"]

def mappingLocationLevelNumber : List String :=
  ["level_number", "level", "base level", "reference level", "level name", "story"]

def mappingLocationRoomType : List String := ["room type", "space type"]

def mappingLocationRoomName : List String :=
  ["room_name", "room", "room name", "space", "space name"]

def mappingSystemSystemType : List String := ["system_type", "system type"]

def mappingSystemSystemName : List String := ["system_name", "system name", "system"]

def mappingEquipmentManufacturer : List String := ["manufacturer", "mfr", "make"]

def mappingEquipmentModelName : List String := ["model_name", "model", "model name"]

def mappingEquipmentSpecification : List String :=
  ["specification", "spec", "description", "comments"]

def mappingOmniclassTitle : List String := ["omniclass title", "title", "omniclass"]

def mappingOmniclassNumber : List String :=
  ["omniclass number", "number", "omniclass no", "omniclass code"]

/-- One property tuple of a snapshot element. -/
structure SnapshotProp where
  displayCategory : Option String
  displayName : Option String
  displayValue : JsVal
deriving Repr

/-- One element of a snapshot chunk. -/
structure SnapshotElem where
  dbId : ℤ
  name : Option String
  properties : List SnapshotProp
deriving Repr

/-- JS object-key assignment: overwrite an existing key in place, otherwise
append. -/
def setKey (flat : List (String × JsVal)) (k : String) (v : JsVal) :
    List (String × JsVal) :=
  if flat.any (fun e => e.1 = k) then
    flat.map (fun e => if e.1 = k then (k, v) else e)
  else flat ++ [(k, v)]

/-- `flattenProps(properties)`: `"<displayCategory>.<displayName>" ↦
displayValue`, skipping tuples with a falsy category or name. -/
def flattenProps (properties : List SnapshotProp) : List (String × JsVal) :=
  properties.foldl
    (fun flat p =>
      match p.displayCategory, p.displayName with
      | some c, some n =>
        if c ≠ "" && n ≠ "" then setKey flat (c ++ "." ++ n) p.displayValue else flat
      | _, _ => flat)
    []

/-- Stored text form of a found-or-null property value (a found value is
bound into a TEXT column). -/
def storeVal : Option JsVal → Option String
  | some v => some (jsValToString v)
  | none => none

/-- `extractGroups(flat, dbId)` from `services/snapshotIngest.js`. -/
structure Groups where
  component_id : ℤ
  component_type : String
  type_name : Option String
  family_name : Option String
  is_asset : Option String
  level_number : Option String
  room_type : Option String
  room_name : Option String
  system_type : Option String
  system_name : Option String
  manufacturer : Option String
  model_name : Option String
  specification : Option String
  omniclass_title : Option String
  omniclass_number : Option String
deriving Repr

def extractGroups (flat : List (String × JsVal)) (dbId : ℤ) : Groups :=
  let type_name := findInFlat flat mappingBasicTypeName
  let family_name := findInFlat flat mappingBasicFamilyName
  let omniclassTitle := findInFlat flat mappingOmniclassTitle
  let omniclassNumber := findInFlat flat mappingOmniclassNumber
  let component_type_raw : String :=
    match findInFlat flat mappingBasicComponentType with
    | some v =>
      if jsTruthyVal v then jsValToString v
      else ((inferCategory type_name family_name).getD "Unknown")
    | none => (inferCategory type_name family_name).getD "Unknown"
  let component_type :=
    match omniclassTitle with
    | some v => if !isEmptyVal v then norm (jsValToString v) else norm component_type_raw
    | none => norm component_type_raw
  { component_id := dbId
    component_type := component_type
    type_name := if jsTruthyVal ((type_name).getD .vnull) then storeVal type_name else none
    family_name := if jsTruthyVal ((family_name).getD .vnull) then storeVal family_name else none
    is_asset := storeVal (findInFlat flat mappingBasicIsAsset)
    level_number := storeVal (findInFlat flat mappingLocationLevelNumber)
    room_type := storeVal (findInFlat flat mappingLocationRoomType)
    room_name := storeVal (findInFlat flat mappingLocationRoomName)
    system_type := storeVal (findInFlat flat mappingSystemSystemType)
    system_name := storeVal (findInFlat flat mappingSystemSystemName)
    manufacturer := storeVal (findInFlat flat mappingEquipmentManufacturer)
    model_name := storeVal (findInFlat flat mappingEquipmentModelName)
    specification := storeVal (findInFlat flat mappingEquipmentSpecification)
    omniclass_title := if jsTruthyVal ((omniclassTitle).getD .vnull) then storeVal omniclassTitle else none
    omniclass_number := if jsTruthyVal ((omniclassNumber).getD .vnull) then storeVal omniclassNumber else none }

/-- `transformSnapshotElement(elem, urn, guid)`: the inserted row. The `id`
column is assigned by the store (`AUTOINCREMENT`), here set by `assignIds`. -/
def transformSnapshotElement (elem : SnapshotElem) (urn guid : String) : Row :=
  let flat := flattenProps elem.properties
  let groups := extractGroups flat elem.dbId
  { id := 0
    urn := urn
    guid := guid
    dbId := elem.dbId
    name := jsOrNull elem.name
    component_id := groups.component_id
    component_type := some groups.component_type
    type_name := groups.type_name
    family_name := groups.family_name
    is_asset := groups.is_asset
    level_number := groups.level_number
    room_type := groups.room_type
    room_name := groups.room_name
    system_type := groups.system_type
    system_name := groups.system_name
    manufacturer := groups.manufacturer
    model_name := groups.model_name
    specification := groups.specification
    omniclass_title := groups.omniclass_title
    omniclass_number := groups.omniclass_number
    props_flat := flat }

/-- `AUTOINCREMENT` id assignment for a batch of inserted rows, starting from
the store's next free id. -/
def assignIds : List Row → ℤ → List Row
  | [], _ => []
  | r :: rs, n => { r with id := n } :: assignIds rs (n + 1)

/-- `initSnapshot`: `DELETE FROM elements WHERE urn = ?`. -/
def deleteUrn (store : List Row) (urn : String) : List Row :=
  store.filter (fun r => r.urn ≠ urn)

/-- A whole ingest run for one URN: `initSnapshot` followed by the chunked
`ingestSnapshotChunk` inserts of all elements (chunking concatenates in
order, so it is modelled as one mapped insert); `startId` is the store's
next `AUTOINCREMENT` value at insert time. -/
def ingestSnapshot (store : List Row) (urn guid : String)
    (elements : List SnapshotElem) (startId : ℤ) : List Row :=
  deleteUrn store urn
    ++ assignIds (elements.map (fun e => transformSnapshotElement e urn guid)) startId

/-- The rows of one partition. -/
def partitionRows (store : List Row) (urn : String) : List Row :=
  store.filter (fun r => r.urn = urn)

/-- The distinct category list of one partition, as `getMeta` computes it
(`SELECT DISTINCT component_type … IS NOT NULL AND != ''`, then
`stripEmpty`). -/
def distinctCategories (store : List Row) (urn : String) : List String :=
  stripEmpty ((((partitionRows store urn).filterMap (fun r => r.component_type)).filter
    (fun c => c ≠ "")).dedup)

/-! ## Theorems -/

/-- A concrete plan used to instantiate theorems with hypotheses. -/
def samplePlan : Plan :=
  { urn := "urn-1"
    task := "count"
    category := none
    limit := 20
    filterParam := none
    filterValue := none
    targetParam := none
    propsFlatKey := none
    useSemanticSearch := false
    semanticQuery := none
    topK := 100 }

/-- A concrete plan that requests semantic search. -/
def sampleSemanticPlan : Plan :=
  { samplePlan with useSemanticSearch := true, semanticQuery := some "kết cấu" }

/-- A concrete plan whose filter attribute is outside the allow-list. -/
def badParamPlan : Plan :=
  { samplePlan with
    task := "distinct"
    filterParam := some "bogus_attr"
    filterValue := some "A"
    targetParam := some "type_name" }

/-- A partition with 201 distinct room names: 200 numeric dummies followed by
`"Room X"`, which the bounded candidate fetch (`LIMIT 200`) cuts off. -/
def manyRoomValues : List String :=
  (List.range 200).map (fun i => toString i) ++ ["Room X"]

/-- A concrete plan filtering `room_name` by the present value `"Room X"`. -/
def roomPlan : Plan :=
  { samplePlan with filterParam := some "room_name", filterValue := some "Room X" }

/-- A stored element row of partition `"urn-1"` carrying one property map. -/
def areaRow (i : ℤ) (pf : List (String × JsVal)) : Row :=
  { id := i
    urn := "urn-1"
    guid := "g"
    dbId := i
    name := none
    component_id := i
    component_type := some "Floors"
    type_name := none
    family_name := none
    is_asset := none
    level_number := none
    room_type := none
    room_name := none
    system_type := none
    system_name := none
    manufacturer := none
    model_name := none
    specification := none
    omniclass_title := none
    omniclass_number := none
    props_flat := pf }

/-- Four rows whose values at the (dotted, as always) flattened property key
`"Dimensions.Area"` are `"120.5 m²"`, `"80,25"`, absent and
`"not a number"`. -/
def areaRows : List Row :=
  [areaRow 1 [("Dimensions.Area", .vstr "120.5 m²")],
   areaRow 2 [("Dimensions.Area", .vstr "80,25")],
   areaRow 3 [],
   areaRow 4 [("Dimensions.Area", .vstr "not a number")]]

/-- A `sum_area` plan over that key. -/
def areaPlan : Plan :=
  { samplePlan with task := "sum_area", propsFlatKey := some "Dimensions.Area" }

/-- `List.contains` on strings implies membership. -/
theorem contains_mem (s : String) (l : List String) (h : l.contains s = true) :
    s ∈ l :=
  List.mem_of_elem_eq_true h

/-- A sanitized parameter that is truthy is allow-listed. -/
theorem sanitizeParam_mem {o : Option String} {s : String}
    (h : sanitizeParam o = some s) (hs : s ≠ "") : s ∈ allowedParams := by
  cases o with
  | none => simp [sanitizeParam] at h
  | some p =>
    by_cases hc : allowedParams.contains p
    · simp [sanitizeParam, hc] at h
      exact h.2 ▸ contains_mem p _ hc
    · by_cases hpe : p = ""
      · subst hpe
        simp [sanitizeParam] at h
        exact absurd h.symm hs
      · simp [sanitizeParam, hpe, hc] at h
        exact h.2 ▸ h.1

/-- A truthy parameter outside the allow-list is sanitized to `none`. -/
theorem sanitizeParam_none {s : String} (hs : s ∉ allowedParams) (hne : s ≠ "") :
    sanitizeParam (some s) = none := by
  simp [sanitizeParam, hne]
  exact hs

/-- Inversion for `jsOrNull`. -/
theorem jsOrNull_some {o : Option String} {a : String} (h : jsOrNull o = some a) :
    o = some a ∧ a ≠ "" := by
  cases o with
  | none => simp [jsOrNull] at h
  | some s =>
    by_cases hse : s = ""
    · simp [jsOrNull, hse] at h
    · simp [jsOrNull, hse] at h
      exact ⟨by rw [h], h ▸ hse⟩

/-- A present filter clause carries a truthy `filterParam`. -/
theorem queryFilter_param {plan : Plan} {kv : String × String}
    (h : queryFilter plan = some kv) :
    plan.filterParam = some kv.1 ∧ kv.1 ≠ "" := by
  unfold queryFilter at h
  cases hp : plan.filterParam with
  | none => rw [hp] at h; simp at h
  | some k =>
    cases hv : plan.filterValue with
    | none => rw [hp, hv] at h; simp at h
    | some v =>
      rw [hp, hv] at h
      simp at h
      obtain ⟨⟨hk, hv2⟩, rfl⟩ := h
      exact ⟨rfl, by simpa using hk⟩

/-- C4: the `sum_area` task at the failing input. Every flattened property
key has the form `"Group.Name"`, so the unquoted path `'$.' || key` of
`json_extract` path-splits at the dot and extracts `NULL` from every row:
over four rows whose values at `"Dimensions.Area"` are `"120.5 m²"`,
`"80,25"`, absent and `"not a number"`, the code returns total `0` with
contributing-row count `0` — while the accumulation loop applied to the
stored values themselves (the extraction the spec describes) yields the
claimed total `200.75` with count `2`. -/
theorem sum_area_dotted_key_yields_zero :
    runQuery areaRows areaPlan (Except.ok none)
        = .ok (.sum "Dimensions.Area" 0 0) ∧
      sumArea [JsVal.vstr "120.5 m²", JsVal.vstr "80,25", JsVal.vnull,
        JsVal.vstr "not a number"] = (200.75, 2) := by
  constructor
  · rfl
  · simp [sumArea, sumAreaStep, firstNumberMatch, firstNumAux, matchNumAt,
      takeDigits, digitsToNat, jsFalsyVal]
    norm_num

/-- C10: a filtered row whose area value is the number `0`, or a string whose
first extracted decimal number is `0`, contributes neither to the total nor
to the contributing-row count — exactly like a row with no extractable
number. -/
theorem zero_area_row_skipped (v : JsVal)
    (h : v = JsVal.vnum 0 ∨ ∃ s, v = JsVal.vstr s ∧ firstNumberMatch s = some 0) :
    ∀ (acc : ℚ × Nat) (rest : List JsVal),
      sumAreaStep acc v = acc ∧ sumArea (v :: rest) = sumArea rest := by
  have hstep : ∀ a : ℚ × Nat, sumAreaStep a v = a := by
    intro a
    rcases h with h | ⟨s, rfl, hs⟩
    · subst h
      simp [sumAreaStep, jsFalsyVal]
    · by_cases hs0 : s = ""
      · subst hs0
        simp [sumAreaStep, jsFalsyVal]
      · simp [sumAreaStep, jsFalsyVal, hs0, hs]
  intro acc rest
  exact ⟨hstep acc, by simp only [sumArea, List.foldl_cons, hstep]⟩

/-- Instantiation of `zero_area_row_skipped` at the numeric value `0`. -/
theorem zero_area_row_skipped_witness :
    sumAreaStep (0, 0) (JsVal.vnum 0) = (0, 0) ∧
      sumArea [JsVal.vnum 0] = sumArea [] :=
  zero_area_row_skipped (JsVal.vnum 0) (Or.inl rfl) (0, 0) []

/-- C2: a truthy `filterParam`/`targetParam` outside the ten-name allow-list
is reset to `none` by the sanitization step, and consequently every dynamic
attribute name interpolated into an equality or group-by clause of the query
is drawn from the allow-list. -/
theorem attr_allowlist_enforced (plan : Plan) :
    (∀ s, plan.filterParam = some s → s ∉ allowedParams → s ≠ "" →
      (sanitizePlan plan).filterParam = none) ∧
    (∀ s, plan.targetParam = some s → s ∉ allowedParams → s ≠ "" →
      (sanitizePlan plan).targetParam = none) ∧
    (∀ a, a ∈ queryAttrNames (sanitizePlan plan) → a ∈ allowedParams) := by
  refine ⟨?_, ?_, ?_⟩
  · intro s h hs hne
    show sanitizeParam plan.filterParam = none
    rw [h]
    exact sanitizeParam_none hs hne
  · intro s h hs hne
    show sanitizeParam plan.targetParam = none
    rw [h]
    exact sanitizeParam_none hs hne
  · intro a ha
    simp only [queryAttrNames, List.mem_append] at ha
    rcases ha with ha | ha
    · cases hq : queryFilter (sanitizePlan plan) with
      | none => rw [hq] at ha; simp at ha
      | some kv =>
        rw [hq] at ha
        simp at ha
        subst ha
        obtain ⟨hp, hne⟩ := queryFilter_param hq
        exact sanitizeParam_mem hp hne
    · by_cases htask :
        ((sanitizePlan plan).task = "distinct" || (sanitizePlan plan).task = "group_count") = true
      · rw [if_pos htask] at ha
        cases ht : jsOrNull (sanitizePlan plan).targetParam with
        | none => rw [ht] at ha; simp at ha
        | some f =>
          rw [ht] at ha
          simp at ha
          subst ha
          obtain ⟨hp, hne⟩ := jsOrNull_some ht
          exact sanitizeParam_mem hp hne
      · rw [if_neg htask] at ha
        simp at ha

/-- Instantiation of `attr_allowlist_enforced`: an out-of-list filter
attribute is dropped while an allow-listed target attribute survives into the
query. -/
theorem attr_allowlist_enforced_witness :
    (sanitizePlan badParamPlan).filterParam = none ∧
      "type_name" ∈ allowedParams :=
  ⟨(attr_allowlist_enforced badParamPlan).1 "bogus_attr" (by decide) (by decide)
      (by decide),
   (attr_allowlist_enforced badParamPlan).2.2 "type_name" (by decide)⟩

/-- C3 (counterexample): with 201 distinct room names present, the proposed
value `"Room X"` exactly equals a currently-present distinct value of the
attribute, yet — because the candidate fetch samples only the first 200
values — the step still runs and the service's pick replaces the valid
`filterValue`. -/
theorem value_disambiguation_beyond_sample :
    ("Room X" ∈ stripEmpty manyRoomValues) ∧
      vdProposed roomPlan = "Room X" ∧
      (valueDisambiguation roomPlan manyRoomValues
        (Except.ok (some "7"))).filterValue = some "7" := by
  decide

/-- C3 (amended): the Value Disambiguation Step is a no-op unless
`filterParam` is truthy, the proposed value is non-empty after trimming and
it does not equal (after trimming) any value of the bounded candidate sample
(the first 200 fetched distinct values of the attribute); and when it does
change the plan, the new `filterValue` comes verbatim from the service
response and its trim occurs among the trimmed sampled candidates. -/
theorem value_disambiguation_guard (plan : Plan) (dbValues : List String)
    (llm : Except Unit (Option String)) :
    (¬(jsTruthyS plan.filterParam = true ∧ vdProposed plan ≠ "" ∧
        (stripEmpty (dbValues.take 200)).any
          (fun v => norm v = vdProposed plan) = false) →
      valueDisambiguation plan dbValues llm = plan) ∧
    (valueDisambiguation plan dbValues llm ≠ plan →
      ∃ value, llm = .ok (some value) ∧
        valueDisambiguation plan dbValues llm = { plan with filterValue := some value } ∧
        (stripEmpty (dbValues.take 200)).any
          (fun v => norm v = norm value) = true) := by
  constructor
  · intro hno
    cases h1 : jsTruthyS plan.filterParam with
    | false => simp [valueDisambiguation, h1]
    | true =>
      cases h2 : (stripEmpty (dbValues.take 200)).isEmpty with
      | true => simp [valueDisambiguation, h1, h2]
      | false =>
        by_cases h3 : vdProposed plan = ""
        · simp [valueDisambiguation, h1, h2, h3]
        · cases h4 : (stripEmpty (dbValues.take 200)).any (fun v => norm v = vdProposed plan) with
          | false => exact absurd ⟨h1, h3, h4⟩ hno
          | true => simp [valueDisambiguation, h1, h2, h3, h4]
  · intro hneq
    cases h1 : jsTruthyS plan.filterParam with
    | false => exact absurd (by simp [valueDisambiguation, h1]) hneq
    | true =>
      cases h2 : (stripEmpty (dbValues.take 200)).isEmpty with
      | true => exact absurd (by simp [valueDisambiguation, h1, h2]) hneq
      | false =>
        by_cases h3 : vdProposed plan = ""
        · exact absurd (by simp [valueDisambiguation, h1, h2, h3]) hneq
        · cases h4 : (stripEmpty (dbValues.take 200)).any (fun v => norm v = vdProposed plan) with
          | true => exact absurd (by simp [valueDisambiguation, h1, h2, h3, h4]) hneq
          | false =>
            cases llm with
            | error e =>
              exact absurd (by simp [valueDisambiguation, h1, h2, h3, h4]) hneq
            | ok vo =>
              cases vo with
              | none =>
                exact absurd (by simp [valueDisambiguation, h1, h2, h3, h4]) hneq
              | some value =>
                cases h5 : (stripEmpty (dbValues.take 200)).any (fun v => norm v = norm value) with
                | false =>
                  exact absurd (by simp [valueDisambiguation, h1, h2, h3, h4, h5]) hneq
                | true =>
                  exact ⟨value, rfl,
                    by simp [valueDisambiguation, h1, h2, h3, h4, h5], h5⟩

/-- Instantiation of `value_disambiguation_guard`: with no filter attribute
the step leaves the plan untouched. -/
theorem value_disambiguation_guard_witness :
    valueDisambiguation samplePlan [] (Except.ok none) = samplePlan :=
  (value_disambiguation_guard samplePlan [] (Except.ok none)).1 (by decide)

/-- C7: when the semantic-search preamble fails (the embedding call throws
or yields no embedding), `runQuery` returns exactly what it returns for the
same plan with semantic retrieval disabled — the question is not aborted. -/
theorem semantic_failure_degrades (db : List Row) (plan : Plan)
    (o : Except Unit (Option (List ℤ)))
    (h : o = .error () ∨ o = .ok none) :
    runQuery db plan o = runQuery db { plan with useSemanticSearch := false } o := by
  have h1 : computeCandidateIds plan o = none := by
    rcases h with rfl | rfl <;>
      · unfold computeCandidateIds
        cases hc : plan.useSemanticSearch && jsTruthyS plan.semanticQuery <;> simp [hc]
  have h2 : computeCandidateIds { plan with useSemanticSearch := false } o = none := by
    simp [computeCandidateIds]
  unfold runQuery
  rw [h1, h2]
  rfl

/-- Instantiation of `semantic_failure_degrades` at a failed embedding call. -/
theorem semantic_failure_degrades_witness :
    runQuery [] sampleSemanticPlan (Except.ok none)
      = runQuery [] { sampleSemanticPlan with useSemanticSearch := false }
        (Except.ok none) :=
  semantic_failure_degrades [] sampleSemanticPlan (Except.ok none) (Or.inr rfl)

/-- C8 (counterexample): the hint matcher's output is not a function of the
question alone — on the same question it varies with the supplied category
list and with the inference-service response (including returning the
service's label verbatim even when it is outside the list). -/
theorem hint_matcher_consults_service :
    detectHintCategory "Có bao nhiêu cửa?" ["Doors"]
        (.ok ⟨some "Doors", "high"⟩) = some "Doors" ∧
      detectHintCategory "Có bao nhiêu cửa?" []
        (.ok ⟨some "Doors", "high"⟩) = none ∧
      detectHintCategory "Có bao nhiêu cửa?" ["Doors"] (.error ()) = none ∧
      detectHintCategory "Có bao nhiêu cửa?" ["Doors"]
        (.ok ⟨some "Windows", "high"⟩) = some "Windows" := by
  decide

/-- C8 (amended): the hint matcher is a deterministic function of the
question, the category list and the inference response; it returns a
category only for a non-empty question and category list, from a successful
response whose confidence is not low, and that category is the response's
label verbatim. -/
theorem hint_matcher_provenance (q : String) (cats : List String)
    (llm : Except Unit HintResp) (c : String)
    (h : detectHintCategory q cats llm = some c) :
    q ≠ "" ∧ cats ≠ [] ∧
      ∃ r, llm = .ok r ∧ r.category = some c ∧ r.confidence ≠ "low" ∧ c ≠ "" := by
  cases llm with
  | error e =>
    unfold detectHintCategory at h
    split at h
    · simp at h
    · simp at h
  | ok r =>
    obtain ⟨rcat, rconf⟩ := r
    unfold detectHintCategory at h
    split at h
    · simp at h
    · rename_i hcond
      simp at hcond
      cases rcat with
      | none => simp at h
      | some cc =>
        simp at h
        obtain ⟨⟨hcc, hconf⟩, rfl⟩ := h
        refine ⟨hcond.1, ?_, ⟨some cc, rconf⟩, rfl, rfl, hconf, hcc⟩
        intro hnil
        rw [hnil] at hcond
        exact absurd rfl hcond.2

/-- Instantiation of `hint_matcher_provenance` at a concrete run. -/
theorem hint_matcher_provenance_witness :
    ("Có bao nhiêu cửa?" : String) ≠ "" ∧ (["Doors"] : List String) ≠ [] ∧
      ∃ r, (Except.ok ⟨some "Doors", "high"⟩ : Except Unit HintResp) = .ok r ∧
        r.category = some "Doors" ∧ r.confidence ≠ "low" ∧ "Doors" ≠ "" :=
  hint_matcher_provenance "Có bao nhiêu cửa?" ["Doors"]
    (Except.ok ⟨some "Doors", "high"⟩) "Doors" (by decide)

/-- C1 (counterexample): the route does not validate the Category Inference
Step's category against the catalog list — a label outside the list survives
the merge and becomes the category filter of the query. -/
theorem category_trusted_unchecked :
    mergeCategory (some "Bogus") none ["Doors"] = some "Bogus" ∧
      queryCategory { samplePlan with category := some "Bogus" } = some "Bogus" ∧
      "Bogus" ∉ ["Doors"] := by
  decide

/-- C1 (amended): provided the Category Inference Step honors its contract
(its category, after trimming, is empty or drawn from the supplied list),
every category produced by the merge — including the membership-guarded
lexical-hint replacement — is an element of the catalog list whenever it is
non-empty. -/
theorem merged_category_in_catalog (p1cat hint : Option String) (cats : List String)
    (hp : ∀ s, p1cat = some s → norm s ≠ "" → norm s ∈ cats) :
    ∀ c, mergeCategory p1cat hint cats = some c → c ≠ "" → c ∈ cats := by
  intro c h hc
  have hhint : ∀ (cat0 : Option String),
      (if (!jsTruthyS cat0 && jsTruthyS hint && cats.contains (hint.getD "")) = true
          then hint else cat0) = some c →
        cat0 = some c ∨ (hint = some c ∧ cats.contains c = true) := by
    intro cat0 hif
    split at hif
    · rename_i hcond
      right
      simp only [Bool.and_eq_true] at hcond
      refine ⟨hif, ?_⟩
      have hb2 := hcond.2
      rw [hif] at hb2
      simpa using hb2
    · left
      exact hif
  unfold mergeCategory at h
  rcases hhint _ h with hcat | ⟨hh, hcont⟩
  · cases hps : p1cat with
    | none => rw [hps] at hcat; simp at hcat
    | some s =>
      rw [hps] at hcat
      by_cases hse : s = ""
      · simp [hse] at hcat
      · simp [hse] at hcat
        have hne : norm s ≠ "" := by rw [hcat]; exact hc
        have := hp s hps hne
        rwa [hcat] at this
  · simpa using contains_mem _ _ hcont

/-- Instantiation of `merged_category_in_catalog` at an in-catalog category. -/
theorem merged_category_in_catalog_witness :
    ("Doors" : String) ∈ ["Doors"] :=
  merged_category_in_catalog (some "Doors") none ["Doors"]
    (fun s hs _ => by
      cases hs
      decide)
    "Doors" (by decide) (by decide)

/-- Batch id assignment keeps the batch size. -/
theorem assignIds_length (rows : List Row) (n : ℤ) :
    (assignIds rows n).length = rows.length := by
  induction rows generalizing n with
  | nil => rfl
  | cons r rs ih => simp [assignIds, ih]

/-- Batch id assignment does not change the stored categories. -/
theorem assignIds_filterMap_component_type (rows : List Row) (n : ℤ) :
    (assignIds rows n).filterMap (fun r => r.component_type)
      = rows.filterMap (fun r => r.component_type) := by
  induction rows generalizing n with
  | nil => rfl
  | cons r rs ih =>
    simp only [assignIds, List.filterMap_cons]
    cases r.component_type <;> simp [ih]

/-- Filtering for the partition key keeps every inserted row of that
partition. -/
theorem assignIds_filter_urn (u : String) (rows : List Row) (n : ℤ)
    (hall : ∀ r ∈ rows, r.urn = u) :
    (assignIds rows n).filter (fun r => r.urn = u) = assignIds rows n := by
  induction rows generalizing n with
  | nil => rfl
  | cons r rs ih =>
    have hr : r.urn = u := hall r (by simp)
    simp only [assignIds, List.filter_cons]
    rw [if_pos (by simpa using hr)]
    rw [ih _ (fun x hx => hall x (by simp [hx]))]

/-- After the delete step no row of the partition remains. -/
theorem deleteUrn_filter (store : List Row) (u : String) :
    (deleteUrn store u).filter (fun r => r.urn = u) = [] := by
  induction store with
  | nil => rfl
  | cons r rs ih =>
    by_cases hr : r.urn = u
    · simp only [deleteUrn, List.filter_cons]
      rw [if_neg (by simpa using hr)]
      exact ih
    · simp only [deleteUrn, List.filter_cons]
      rw [if_pos (by simpa using hr)]
      simp only [List.filter_cons]
      rw [if_neg (by simpa using hr)]
      exact ih

/-- After an ingest run the partition holds exactly the transformed input
rows (with store-assigned ids), independently of the previous store
contents. -/
theorem partition_ingest (store : List Row) (u g : String)
    (es : List SnapshotElem) (n : ℤ) :
    partitionRows (ingestSnapshot store u g es n) u
      = assignIds (es.map (fun e => transformSnapshotElement e u g)) n := by
  unfold partitionRows ingestSnapshot
  rw [List.filter_append]
  rw [deleteUrn_filter]
  rw [assignIds_filter_urn u _ n (by
    intro r hr
    obtain ⟨e, _, rfl⟩ := List.mem_map.mp hr
    rfl)]
  simp

/-- C9: running the delete-then-insert ingest twice with the same input
leaves the partition with the same row count and the same distinct category
list as running it once — rows are replaced, never duplicated (only the
store-assigned ids may differ between runs). -/
theorem ingest_idempotent (store : List Row) (urn guid : String)
    (elements : List SnapshotElem) (id1 id2 : ℤ) :
    (partitionRows (ingestSnapshot (ingestSnapshot store urn guid elements id1)
        urn guid elements id2) urn).length
      = (partitionRows (ingestSnapshot store urn guid elements id1) urn).length ∧
    distinctCategories (ingestSnapshot (ingestSnapshot store urn guid elements id1)
        urn guid elements id2) urn
      = distinctCategories (ingestSnapshot store urn guid elements id1) urn := by
  constructor
  · rw [partition_ingest, partition_ingest, assignIds_length, assignIds_length]
  · unfold distinctCategories
    rw [partition_ingest, partition_ingest]
    have hmap := assignIds_filterMap_component_type
      (elements.map (fun e => transformSnapshotElement e urn guid))
    rw [hmap id1, hmap id2]

/-- The dot product of a vector with itself is nonnegative. -/
theorem dotProduct_self_nonneg (v : List ℝ) : 0 ≤ dotProduct v v := by
  unfold dotProduct
  rw [List.zipWith_same]
  apply List.sum_nonneg
  intro x hx
  obtain ⟨a, _, rfl⟩ := List.mem_map.mp hx
  exact mul_self_nonneg a

/-- The dot product of a non-zero vector with itself is positive. -/
theorem dotProduct_self_pos (v : List ℝ) (h : ∃ x ∈ v, x ≠ 0) :
    0 < dotProduct v v := by
  obtain ⟨x, hx, hx0⟩ := h
  have hmem : x * x ∈ List.zipWith (· * ·) v v := by
    rw [List.zipWith_same]
    exact List.mem_map_of_mem _ hx
  have hle : x * x ≤ dotProduct v v := by
    apply List.single_le_sum ?_ _ hmem
    intro y hy
    rw [List.zipWith_same] at hy
    obtain ⟨a, _, rfl⟩ := List.mem_map.mp hy
    exact mul_self_nonneg a
  calc (0:ℝ) < x * x := mul_self_pos.mpr hx0
    _ ≤ _ := hle

/-- Dot product against the zero vector vanishes. -/
theorem dotProduct_replicate_zero (w : List ℝ) :
    dotProduct w (List.replicate w.length 0) = 0 := by
  induction w with
  | nil => rfl
  | cons a l ih =>
    simp only [List.length_cons, List.replicate_succ, dotProduct,
      List.zipWith_cons_cons, List.sum_cons, mul_zero] at *
    simpa using ih

/-- Self dot product of the zero vector vanishes. -/
theorem dotProduct_replicate_zero_self (n : Nat) :
    dotProduct (List.replicate n 0) (List.replicate n 0) = (0:ℝ) := by
  have h := dotProduct_replicate_zero (List.replicate n (0:ℝ))
  rwa [List.length_replicate] at h

/-- C5: cosine similarity of a non-zero vector with itself is `1`, and
similarity of any vector with the zero vector of its length is `0` (the
zero-magnitude guard). -/
theorem cosine_similarity_self_and_zero (v : List ℝ) (h : ∃ x ∈ v, x ≠ 0) :
    cosineSimilarity v v = 1 ∧
      ∀ w : List ℝ, cosineSimilarity w (List.replicate w.length 0) = 0 := by
  constructor
  · have hpos := dotProduct_self_pos v h
    unfold cosineSimilarity
    rw [if_neg (by simp)]
    show (if Real.sqrt (dotProduct v v) * Real.sqrt (dotProduct v v) = 0 then (0:ℝ)
      else dotProduct v v / (Real.sqrt (dotProduct v v) * Real.sqrt (dotProduct v v))) = 1
    rw [Real.mul_self_sqrt hpos.le, if_neg hpos.ne']
    exact div_self hpos.ne'
  · intro w
    unfold cosineSimilarity
    rw [if_neg (by simp)]
    show (if Real.sqrt (dotProduct w w)
          * Real.sqrt (dotProduct (List.replicate w.length 0) (List.replicate w.length 0)) = 0
        then (0:ℝ)
        else dotProduct w (List.replicate w.length 0)
          / (Real.sqrt (dotProduct w w)
            * Real.sqrt (dotProduct (List.replicate w.length 0)
                (List.replicate w.length 0)))) = 0
    rw [dotProduct_replicate_zero_self, Real.sqrt_zero, mul_zero, if_pos rfl]

/-- Instantiation of `cosine_similarity_self_and_zero` at the vector `[1]`. -/
theorem cosine_similarity_self_and_zero_witness :
    (∃ x ∈ [(1:ℝ)], x ≠ 0) ∧
      (cosineSimilarity [(1:ℝ)] [(1:ℝ)] = 1 ∧
        ∀ w : List ℝ, cosineSimilarity w (List.replicate w.length 0) = 0) :=
  ⟨⟨1, by simp, one_ne_zero⟩,
   cosine_similarity_self_and_zero [(1:ℝ)] ⟨1, by simp, one_ne_zero⟩⟩

/-- C6: semantic retrieval returns at most `min(K, rows-with-embedding)`
identifiers, and they are the ids of the top-`K` prefix of the scored list,
which is sorted by non-increasing cosine similarity to the query. -/
theorem semantic_search_bounded_sorted (rows : List (ℤ × List ℝ)) (q : List ℝ)
    (k : Nat) :
    (semanticSearch rows q k).length ≤ min k rows.length ∧
      List.Sorted (fun a b => a ≥ b) ((semanticScores rows q).map Prod.snd) ∧
      semanticSearch rows q k = ((semanticScores rows q).take k).map Prod.fst := by
  have hs : (semanticScores rows q).Pairwise
      (fun a b => (decide (b.2 ≤ a.2) : Bool) = true) := by
    unfold semanticScores
    apply List.sorted_mergeSort
    · exact fun a b c hab hbc =>
        decide_eq_true (le_trans (of_decide_eq_true hbc) (of_decide_eq_true hab))
    · intro a b
      simp only [Bool.or_eq_true, decide_eq_true_iff]
      exact le_total b.2 a.2
  refine ⟨?_, ?_, ?_⟩
  · by_cases hempty : rows.isEmpty
    · simp [semanticSearch, hempty]
    · simp only [semanticSearch, hempty, if_neg, Bool.false_eq_true, ite_false,
        List.length_map, List.length_take]
      have : (semanticScores rows q).length = rows.length := by
        simp [semanticScores]
      rw [this]
  · show ((semanticScores rows q).map Prod.snd).Pairwise (fun a b => a ≥ b)
    rw [List.pairwise_map]
    exact hs.imp (fun h => of_decide_eq_true h)
  · by_cases hempty : rows.isEmpty
    · have : rows = [] := List.isEmpty_iff.mp hempty
      subst this
      simp [semanticSearch, semanticScores]
    · simp [semanticSearch, hempty]

end BimPipeline
